import Mathlib

/-!
Shallow embedding of the RAG chatbot's tool layer (`backend/search_tools.py`)
and generation orchestrator (`backend/ai_generator.py`), with theorems
settling the specification's claims about them.

Python strings become `String`, optional parameters become `Option`,
dictionaries keyed by insertion order become association lists, mutable
object attributes become explicit state passed in and out, and a call
that may raise returns an `Except`/`Option`-shaped result.
-/

namespace RagSpec

/-- Embeds Python's substring operator `pat in s` on strings. -/
def containsSubstr (pat s : String) : Bool :=
  decide (pat.toList <:+: s.toList)

/-- Embeds Python's `s.lower()` as the character list of the lowercased
string (the error messages classified with it are ASCII, where the two
lowercasing functions agree character by character). -/
def lowerChars (s : String) : List Char :=
  s.toList.map Char.toLower

/-- Substring test against an already-lowercased character list. -/
def containsSubstrLower (pat : String) (cs : List Char) : Bool :=
  decide (pat.toList <:+: cs)

/-- Truthiness of an `Optional[str]` value in Python: `None` and `""` are falsy. -/
def optStrTruthy : Option String → Bool
  | none => false
  | some s => !(s == "")

/-- Truthiness of an `Optional[int]` value in Python: `None` and `0` are falsy. -/
def optIntTruthy : Option Int → Bool
  | none => false
  | some n => !(n == 0)

/-- The structured source data built by the tools for the UI
(`search_tools.py`, the dicts with keys `display_text` and `lesson_link`). -/
structure SourceCitation where
  display_text : String
  lesson_link : Option String
deriving Repr, DecidableEq

/-- One metadata dict attached to a search hit (`meta.get("course_title", ...)`,
`meta.get("lesson_number")`): a missing key is `none`. -/
structure ChunkMeta where
  course_title : Option String
  lesson_number : Option Int
deriving Repr, DecidableEq

/-- Modelled from the spec: the document/search collaborator's result shape
`{documents: [...], metadata: [...], distances: [...], error: optional}`
(`vector_store.py` is not part of the sources; the `distances` field is never
read by the embedded code and is omitted). `is_empty` means zero hits. -/
structure SearchResults where
  documents : List String
  metadata : List ChunkMeta
  error : Option String
deriving Repr, DecidableEq

/-- Modelled from the spec: zero hits. -/
def SearchResults.is_empty (r : SearchResults) : Bool :=
  r.documents.isEmpty

/-- Modelled from the spec: the opaque document/search collaborator consumed by
the tools (`search` and `get_lesson_link` of the vector store). -/
structure VectorStore where
  search : String → Option String → Option Int → SearchResults
  get_lesson_link : String → Int → Option String

/-- `CourseSearchTool._format_results`: builds for each (document, metadata)
hit a `[Course Title - Lesson N]` header plus the passage, and one structured
source per hit; returns the blank-line-joined text and the new `last_sources`. -/
def CourseSearchTool.format_results (store : VectorStore) (results : SearchResults) :
    String × List SourceCitation :=
  let step := fun (acc : List String × List SourceCitation) (hit : String × ChunkMeta) =>
    let doc := hit.1
    let meta := hit.2
    let course_title := meta.course_title.getD "unknown"
    let lesson_suffix := match meta.lesson_number with
      | some n => " - Lesson " ++ toString n
      | none => ""
    let header := "[" ++ course_title ++ lesson_suffix ++ "]"
    let source_display := course_title ++ lesson_suffix
    let lesson_link := match meta.lesson_number with
      | some n => if course_title == "unknown" then none else store.get_lesson_link course_title n
      | none => none
    let source_data : SourceCitation := { display_text := source_display, lesson_link := lesson_link }
    (acc.1 ++ [header ++ "\n" ++ doc], acc.2 ++ [source_data])
  let out := (results.documents.zip results.metadata).foldl step ([], [])
  (String.intercalate "\n\n" out.1, out.2)

/-- `CourseSearchTool.execute`: runs the store search and returns the result
string together with the tool's `last_sources` attribute after the call
(the attribute is only overwritten by `_format_results` on a non-empty hit
list; error and empty-result returns leave it untouched). -/
def CourseSearchTool.execute (store : VectorStore) (last_sources : List SourceCitation)
    (query : String) (course_name : Option String) (lesson_number : Option Int) :
    String × List SourceCitation :=
  let results := store.search query course_name lesson_number
  match results.error with
  | some e => (e, last_sources)
  | none =>
    if results.is_empty then
      let filter_info :=
        (if optStrTruthy course_name then " in course '" ++ course_name.getD "" ++ "'" else "")
        ++ (if optIntTruthy lesson_number then " in lesson " ++ toString (lesson_number.getD 0) else "")
      ("No relevant content found" ++ filter_info ++ ".", last_sources)
    else
      CourseSearchTool.format_results store results

/-- One lesson entry of the parsed `lessons_json` metadata field
(`lesson.get("lesson_number", "")`, `lesson.get("lesson_title", "")`):
a missing key is `none` and renders as the empty string. -/
structure LessonMeta where
  lesson_number : Option Int
  lesson_title : Option String
deriving Repr, DecidableEq

/-- The course metadata dict read from the catalog by `CourseOutlineTool`.
The stored `lessons_json` string is modelled by its parsed value: `none`
stands for a `json.JSONDecodeError` (the code then uses `[]`); a missing
key defaults to `"[]"`, i.e. `some []`. -/
structure OutlineMeta where
  title : Option String
  course_link : Option String
  instructor : Option String
  lessons : Option (List LessonMeta)
deriving Repr, DecidableEq

/-- Outcome of `store.course_catalog.get(ids=[course_title])`:
an exception, a falsy/metadata-less result, or a metadata dict. -/
inductive CatalogGet where
  | raised (msg : String)
  | missing
  | found (metadata : OutlineMeta)

/-- `CourseOutlineTool._format_outline`: renders the fixed-format outline and
replaces the tool's `last_sources` with exactly one citation for the outline. -/
def CourseOutlineTool.format_outline (metadata : OutlineMeta) :
    String × List SourceCitation :=
  let title := metadata.title.getD "Unknown Course"
  let course_link := metadata.course_link.getD ""
  let instructor := metadata.instructor.getD ""
  let lessons := metadata.lessons.getD []
  let outline := ["Course: " ++ title]
    ++ (if instructor == "" then [] else ["Instructor: " ++ instructor])
    ++ (if course_link == "" then [] else ["Course Link: " ++ course_link])
    ++ (if lessons.isEmpty then ["\nNo lessons found"]
        else "\nLessons:" :: lessons.map (fun l =>
          let lesson_num := match l.lesson_number with
            | some n => toString n
            | none => ""
          "  Lesson " ++ lesson_num ++ ": " ++ l.lesson_title.getD ""))
  let source_data : SourceCitation :=
    { display_text := title ++ " - Course Outline", lesson_link := some course_link }
  (String.intercalate "\n" outline, [source_data])

/-- `CourseOutlineTool.execute`: resolves the course name through the store's
semantic matching, fetches the catalog metadata, and renders the outline;
returns the result string with the tool's `last_sources` after the call. -/
def CourseOutlineTool.execute (resolve_course_name : String → Option String)
    (catalog_get : String → CatalogGet) (last_sources : List SourceCitation)
    (course_name : String) : String × List SourceCitation :=
  match resolve_course_name course_name with
  | none => ("No course found matching '" ++ course_name ++ "'", last_sources)
  | some course_title =>
    match catalog_get course_title with
    | .raised e => ("Error retrieving course outline: " ++ e, last_sources)
    | .missing => ("Course metadata not found for '" ++ course_title ++ "'", last_sources)
    | .found metadata => CourseOutlineTool.format_outline metadata

/-- What one `tool.execute(**kwargs)` call does: returns a result string and
the tool's new `last_sources` attribute, or raises. -/
inductive ToolRun where
  | ok (result : String) (new_last : List SourceCitation)
  | raised (msg : String)

/-- One entry of the `ToolManager.tools` dict: the registered name, whether the
instance has a `last_sources` attribute (`hasattr`), its `execute` behaviour as
a function of the arguments and of the current attribute value, and the current
attribute value itself. -/
structure RegisteredTool (α : Type) where
  name : String
  has_last_sources : Bool
  run : α → List SourceCitation → ToolRun
  last_sources : List SourceCitation

/-- `ToolManager`: the registered tools in insertion order and the
session-wide `session_sources` accumulator. -/
structure ToolManager (α : Type) where
  tools : List (RegisteredTool α)
  session_sources : List SourceCitation

/-- `ToolManager.execute_tool`: unknown names get the sentinel string (never an
exception); a found tool runs, its (possibly mutated) `last_sources` is written
back, and — when the instance has that attribute — the whole current value is
extended onto `session_sources`. An exception from the tool propagates. -/
def ToolManager.execute_tool (tm : ToolManager α) (tool_name : String) (args : α) :
    Except String (String × ToolManager α) :=
  match tm.tools.find? (fun t => t.name == tool_name) with
  | none => .ok ("Tool '" ++ tool_name ++ "' not found", tm)
  | some t =>
    match t.run args t.last_sources with
    | .raised m => .error m
    | .ok result new_last =>
      let tools := tm.tools.map (fun u =>
        if u.name == tool_name && u.has_last_sources then { u with last_sources := new_last } else u)
      let session :=
        if t.has_last_sources then tm.session_sources ++ new_last else tm.session_sources
      .ok (result, { tools := tools, session_sources := session })

/-- `ToolManager.get_last_sources`: first registered tool with a non-empty
`last_sources` attribute wins. -/
def ToolManager.get_last_sources (tm : ToolManager α) : List SourceCitation :=
  match tm.tools.find? (fun t => t.has_last_sources && !t.last_sources.isEmpty) with
  | some t => t.last_sources
  | none => []

/-- `ToolManager.get_all_sources_from_session`. -/
def ToolManager.get_all_sources_from_session (tm : ToolManager α) : List SourceCitation :=
  tm.session_sources

/-- `ToolManager.reset_sources`: clears the session accumulator and every
tool's `last_sources` attribute. -/
def ToolManager.reset_sources (tm : ToolManager α) : ToolManager α :=
  { tools := tm.tools.map (fun t =>
      if t.has_last_sources then { t with last_sources := [] } else t),
    session_sources := [] }

/-! ### Generation orchestrator (`backend/ai_generator.py`) -/

/-- One block of a model response's `content` list: a text block or a
`tool_use` block (`{type, id, name, input}`; the `input` kwargs are opaque
to the orchestrator and modelled as an association list). -/
inductive ContentBlock where
  | text (text : String)
  | tool_use (id : String) (name : String) (input : List (String × String))
deriving Repr, DecidableEq

/-- A model response: `{stop_reason, content}`. -/
structure ModelResponse where
  stop_reason : String
  content : List ContentBlock
deriving Repr, DecidableEq

/-- What a `tool_manager.execute_tool(name, **input)` call does from the
orchestrator's point of view: returns a string or raises. -/
inductive ToolOutcome where
  | ok (result : String)
  | raised (msg : String)
deriving Repr, DecidableEq

/-- The tool executor the orchestrator calls: name and kwargs to outcome. -/
def ExecFn : Type := String → List (String × String) → ToolOutcome

/-- One `{"type": "tool_result", "tool_use_id": ..., "content": ...}` dict. -/
structure ToolResultBlock where
  tool_use_id : String
  content : String
deriving Repr, DecidableEq

/-- The content of one message of the round state: the seeded user query
string, an assistant turn's content blocks, or a synthesized tool-results
list. -/
inductive MsgContent where
  | text (s : String)
  | blocks (bs : List ContentBlock)
  | toolResults (rs : List ToolResultBlock)
deriving Repr, DecidableEq

/-- One message of the orchestrator's round state. -/
structure Message where
  role : String
  content : MsgContent
deriving Repr, DecidableEq

/-- The transient-error classification applied to a tool exception in
`_execute_tools_for_round` (`"rate limit" in error_msg.lower() or "network"
in error_msg.lower()`). -/
def isTransientToolMsg (m : String) : Bool :=
  containsSubstrLower "rate limit" (lowerChars m) || containsSubstrLower "network" (lowerChars m)

/-- The loop body of `AIGenerator._execute_tools_for_round`, with the
accumulated `tool_results` list made explicit: every `tool_use` block yields
one `tool_result` entry (its result, or a `Tool execution failed` text on a
non-transient exception); a transient exception aborts with `none`; an
empty accumulation also yields `none`. -/
def execute_tools_for_round_go (ex : ExecFn) :
    List ContentBlock → List ToolResultBlock → Option (List ToolResultBlock)
  | [], acc => if acc.isEmpty then none else some acc
  | .text _ :: rest, acc => execute_tools_for_round_go ex rest acc
  | .tool_use id name input :: rest, acc =>
    match ex name input with
    | .ok r => execute_tools_for_round_go ex rest (acc ++ [⟨id, r⟩])
    | .raised m =>
      if isTransientToolMsg m then none
      else execute_tools_for_round_go ex rest (acc ++ [⟨id, "Tool execution failed: " ++ m⟩])

/-- `AIGenerator._execute_tools_for_round`. -/
def execute_tools_for_round (ex : ExecFn) (content : List ContentBlock) :
    Option (List ToolResultBlock) :=
  execute_tools_for_round_go ex content []

/-- What the loop of `generate_response` leaves behind: the accumulated round
state, one entry per model request recording whether that request carried the
tool definitions, the number of `_execute_tools_for_round` calls, the last
response bound in the loop, and the number of requests issued. -/
structure LoopOut where
  messages : List Message
  reqLog : List Bool
  batches : Nat
  lastResponse : Option ModelResponse
  reqIdx : Nat
deriving Repr

/-- The `for round_num in range(max_rounds)` loop of
`AIGenerator.generate_response`, over a deterministic sequence `responses` of
model responses (the `reqIdx`-th model request receives `responses reqIdx`).
`toolsNonempty` is the truthiness of the `tools` argument; `mgr` is the tool
manager (absent = `None`). -/
def genLoop (responses : Nat → ModelResponse) (toolsNonempty : Bool) (mgr : Option ExecFn) :
    Nat → Nat → List Message → List Bool → Nat → Option ModelResponse → LoopOut
  | 0, reqIdx, msgs, log, batches, last => ⟨msgs, log, batches, last, reqIdx⟩
  | fuel + 1, reqIdx, msgs, log, batches, _ =>
    let resp := responses reqIdx
    let msgs' := msgs ++ [⟨"assistant", .blocks resp.content⟩]
    let log' := log ++ [toolsNonempty]
    match resp.stop_reason == "tool_use", mgr with
    | true, some ex =>
      match execute_tools_for_round ex resp.content with
      | some trs =>
        genLoop responses toolsNonempty mgr fuel (reqIdx + 1)
          (msgs' ++ [⟨"user", .toolResults trs⟩]) log' (batches + 1) (some resp)
      | none => ⟨msgs', log', batches + 1, some resp, reqIdx + 1⟩
    | _, _ => ⟨msgs', log', batches, some resp, reqIdx + 1⟩

/-- `response.content[0].text`: `some` of the text when the first content
block is a text block, `none` when the access would raise (empty content or
a `tool_use` first block). -/
def contentText : List ContentBlock → Option String
  | .text t :: _ => some t
  | _ => none

/-- The observable outcome of one `generate_response` call. -/
structure GenResult where
  messages : List Message
  reqLog : List Bool
  batches : Nat
  didSynthesis : Bool
  result : Option String
deriving Repr

/-- `AIGenerator.generate_response`: seeds the round state with the user
query, runs up to `max_rounds` rounds, and — when the loop left a tool-result
turn last — issues one final synthesis request without tool definitions. -/
def generate_response (responses : Nat → ModelResponse) (query : String)
    (toolsNonempty : Bool) (mgr : Option ExecFn) (max_rounds : Nat) : GenResult :=
  let init : List Message := [⟨"user", .text query⟩]
  let out := genLoop responses toolsNonempty mgr max_rounds 0 init [] 0 none
  match out.messages.getLast? with
  | some m =>
    if m.role == "user" then
      let fin := responses out.reqIdx
      ⟨out.messages, out.reqLog ++ [false], out.batches, true, contentText fin.content⟩
    else
      ⟨out.messages, out.reqLog, out.batches, false,
        out.lastResponse.bind (fun r => contentText r.content)⟩
  | none => ⟨out.messages, out.reqLog, out.batches, false, none⟩

/-! ### Retry logic (`AIGenerator._api_call_with_retry`) -/

/-- The transient-error classification of `_api_call_with_retry`
(`"rate limit"`, `"network"` or `"connection"` in the lowercased message). -/
def isTransientApiMsg (m : String) : Bool :=
  containsSubstrLower "rate limit" (lowerChars m) || containsSubstrLower "network" (lowerChars m)
    || containsSubstrLower "connection" (lowerChars m)

/-- Outcome of one `self.client.messages.create(**api_params)` attempt. -/
inductive CallOutcome (α : Type) where
  | ok (v : α)
  | err (msg : String)
deriving Repr, DecidableEq

/-- What a `_api_call_with_retry` run did: its returned-or-raised outcome, the
number of `create` attempts it made, and the `time.sleep` delays in order. -/
structure RetryTrace (α : Type) where
  result : Except String α
  attempts : Nat
  sleeps : List Nat
deriving Repr

/-- The `for attempt in range(max_retries + 1)` loop of
`_api_call_with_retry`, by the number of attempts still allowed after the
current one (`remaining = max_retries - attempt`): at `remaining = 0` any
exception re-raises; earlier, a transient-classified exception sleeps
`2 ** attempt` and retries, any other exception re-raises at once. -/
def retryAux (call : Nat → CallOutcome α) : Nat → Nat → RetryTrace α
  | 0, attempt =>
    match call attempt with
    | .ok v => ⟨.ok v, 1, []⟩
    | .err m => ⟨.error m, 1, []⟩
  | remaining + 1, attempt =>
    match call attempt with
    | .ok v => ⟨.ok v, 1, []⟩
    | .err m =>
      if isTransientApiMsg m then
        let rest := retryAux call remaining (attempt + 1)
        ⟨rest.result, rest.attempts + 1, 2 ^ attempt :: rest.sleeps⟩
      else ⟨.error m, 1, []⟩

/-- `AIGenerator._api_call_with_retry` over a deterministic sequence of
attempt outcomes. -/
def api_call_with_retry (call : Nat → CallOutcome α) (max_retries : Nat) : RetryTrace α :=
  retryAux call max_retries 0

/-! ### Shared helper lemmas -/

/-- A pattern that is an infix of `t` is a substring of `s ++ t`. -/
theorem containsSubstr_append_right (pat s t : String)
    (h : pat.toList <:+: t.toList) : containsSubstr pat (s ++ t) = true := by
  simp only [containsSubstr, decide_eq_true_eq]
  have hsplit : (s ++ t).toList = s.toList ++ t.toList := by simp [String.toList]
  rw [hsplit]
  exact h.trans (List.suffix_append _ _).isInfix

/-! ### Claims about the tool layer -/

/-- C5: `ToolManager.execute_tool` on a name not present in the registry
returns the plain sentinel string `Tool '<name>' not found` — which contains
`"not found"` — instead of raising. -/
theorem execute_tool_unknown_name (α : Type) (tm : ToolManager α)
    (tool_name : String) (args : α)
    (h : tm.tools.find? (fun t => t.name == tool_name) = none) :
    tm.execute_tool tool_name args =
      .ok ("Tool '" ++ tool_name ++ "' not found", tm) ∧
    containsSubstr "not found" ("Tool '" ++ tool_name ++ "' not found") = true := by
  constructor
  · unfold ToolManager.execute_tool
    rw [h]
  · have : ("Tool '" ++ tool_name ++ "' not found") = ("Tool '" ++ tool_name) ++ "' not found" := by
      simp [String.append_assoc]
    rw [this]
    exact containsSubstr_append_right _ _ _ (by decide)

/-- Witness for C5 at the concrete unknown name `"unknown_tool"` on an empty
registry. -/
theorem execute_tool_unknown_name_witness :
    ToolManager.execute_tool (α := Unit) ⟨[], []⟩ "unknown_tool" () =
      .ok ("Tool 'unknown_tool' not found", ⟨[], []⟩) ∧
    containsSubstr "not found" ("Tool 'unknown_tool' not found") = true := by
  have h := execute_tool_unknown_name Unit ⟨[], []⟩ "unknown_tool" () rfl
  exact ⟨h.1, h.2⟩

/-- C8: after `reset_sources`, the session log is empty, every registered
tool's `last_sources` attribute is empty, and `get_last_sources` returns the
empty list. -/
theorem reset_sources_clears (α : Type) (tm : ToolManager α) :
    (tm.reset_sources).get_all_sources_from_session = [] ∧
    (∀ t ∈ (tm.reset_sources).tools, t.has_last_sources = true → t.last_sources = []) ∧
    (tm.reset_sources).get_last_sources = [] := by
  refine ⟨rfl, ?_, ?_⟩
  · intro t ht hhas
    simp only [ToolManager.reset_sources, List.mem_map] at ht
    obtain ⟨u, _, rfl⟩ := ht
    by_cases hu : u.has_last_sources
    · simp [hu]
    · simp [hu] at hhas
  · unfold ToolManager.get_last_sources
    have hnone : (tm.reset_sources).tools.find?
        (fun t => t.has_last_sources && !t.last_sources.isEmpty) = none := by
      rw [List.find?_eq_none]
      intro t ht
      simp only [ToolManager.reset_sources, List.mem_map] at ht
      obtain ⟨u, _, rfl⟩ := ht
      by_cases hu : u.has_last_sources <;> simp [hu]
    rw [hnone]

/-- Witness for C8: a registry holding one tool with a leftover citation and a
non-empty session log is fully cleared by `reset_sources`. -/
theorem reset_sources_clears_witness :
    (ToolManager.reset_sources (α := Unit)
        ⟨[⟨"search_course_content", true, fun _ s => .ok "r" s,
            [⟨"CourseA - Lesson 1", none⟩]⟩],
          [⟨"CourseA - Lesson 1", none⟩]⟩).get_all_sources_from_session = [] ∧
    (ToolManager.reset_sources (α := Unit)
        ⟨[⟨"search_course_content", true, fun _ s => .ok "r" s,
            [⟨"CourseA - Lesson 1", none⟩]⟩],
          [⟨"CourseA - Lesson 1", none⟩]⟩).get_last_sources = [] := by
  have h := reset_sources_clears Unit
      ⟨[⟨"search_course_content", true, fun _ s => .ok "r" s,
          [⟨"CourseA - Lesson 1", none⟩]⟩],
        [⟨"CourseA - Lesson 1", none⟩]⟩
  exact ⟨h.1, h.2.2⟩

/-- C9: `CourseOutlineTool.execute` on an unresolvable course name returns a
string containing `No course found matching '<name>'` and leaves the tool's
citation state unchanged; on a resolvable course whose catalog metadata is
found it returns the rendered outline and records exactly one citation
referencing the course outline. -/
theorem course_outline_execute_spec (resolve_course_name : String → Option String)
    (catalog_get : String → CatalogGet) (st : List SourceCitation)
    (course_name : String) :
    (resolve_course_name course_name = none →
      CourseOutlineTool.execute resolve_course_name catalog_get st course_name =
        ("No course found matching '" ++ course_name ++ "'", st)) ∧
    (∀ course_title metadata,
      resolve_course_name course_name = some course_title →
      catalog_get course_title = .found metadata →
      CourseOutlineTool.execute resolve_course_name catalog_get st course_name =
        CourseOutlineTool.format_outline metadata ∧
      (CourseOutlineTool.execute resolve_course_name catalog_get st course_name).2 =
        [{ display_text := metadata.title.getD "Unknown Course" ++ " - Course Outline",
           lesson_link := some (metadata.course_link.getD "") }]) := by
  constructor
  · intro h
    unfold CourseOutlineTool.execute
    rw [h]
  · intro course_title metadata hres hcat
    have hex : CourseOutlineTool.execute resolve_course_name catalog_get st course_name =
        CourseOutlineTool.format_outline metadata := by
      unfold CourseOutlineTool.execute
      simp only [hres, hcat]
    refine ⟨hex, ?_⟩
    rw [hex]
    simp [CourseOutlineTool.format_outline]

/-- Witness for C9: the unresolvable name `"Zzz"` and a resolvable course. -/
theorem course_outline_execute_spec_witness :
    CourseOutlineTool.execute
        (fun n => if n == "MCP" then some "MCP Course" else none)
        (fun t => if t == "MCP Course"
          then .found ⟨some "MCP Course", some "http link", none, some []⟩
          else .missing)
        [] "Zzz" = ("No course found matching 'Zzz'", []) ∧
    (CourseOutlineTool.execute
        (fun n => if n == "MCP" then some "MCP Course" else none)
        (fun t => if t == "MCP Course"
          then .found ⟨some "MCP Course", some "http link", none, some []⟩
          else .missing)
        [] "MCP").2 =
      [{ display_text := "MCP Course - Course Outline", lesson_link := some "http link" }] := by
  refine ⟨(course_outline_execute_spec _ _ [] "Zzz").1 rfl, ?_⟩
  have h := (course_outline_execute_spec
      (fun n => if n == "MCP" then some "MCP Course" else none)
      (fun t => if t == "MCP Course"
        then .found ⟨some "MCP Course", some "http link", none, some []⟩
        else .missing)
      [] "MCP").2 "MCP Course" ⟨some "MCP Course", some "http link", none, some []⟩ rfl rfl
  simpa using h.2

/-- A store whose search always returns zero hits and no error. -/
def emptyStore : VectorStore :=
  { search := fun _ _ _ => { documents := [], metadata := [], error := none },
    get_lesson_link := fun _ _ => none }

/-- C6 counterexample: with zero hits, no error and the lesson filter `0`
given, `CourseSearchTool.execute` returns plain `"No relevant content
found."` — the given lesson filter is not named (Python's `if lesson_number:`
is false at `0`), contradicting the claim that every given filter is named. -/
theorem course_search_empty_lesson_zero_counterexample :
    (CourseSearchTool.execute emptyStore [] "q" none (some 0)).1 =
      "No relevant content found." ∧
    containsSubstr "in lesson"
      (CourseSearchTool.execute emptyStore [] "q" none (some 0)).1 = false := by
  exact ⟨rfl, by decide⟩

/-- C6 (amended): with zero hits and no error, `CourseSearchTool.execute`
returns the `No relevant content found` message naming each truthy active
filter — the course filter when it is a non-empty string, the lesson filter
when it is a non-zero number — and leaves the tool's citation state
untouched. (With course filter `"X"` and lesson filter `3` this computes to
exactly `No relevant content found in course 'X' in lesson 3.`, see the
witness.) -/
theorem course_search_empty_message (store : VectorStore) (st : List SourceCitation)
    (query : String) (course_name : Option String) (lesson_number : Option Int)
    (herr : (store.search query course_name lesson_number).error = none)
    (hempty : (store.search query course_name lesson_number).documents = []) :
    (CourseSearchTool.execute store st query course_name lesson_number).1 =
      "No relevant content found"
        ++ (if optStrTruthy course_name
            then " in course '" ++ course_name.getD "" ++ "'" else "")
        ++ (if optIntTruthy lesson_number
            then " in lesson " ++ toString (lesson_number.getD 0) else "")
        ++ "." ∧
    (CourseSearchTool.execute store st query course_name lesson_number).2 = st := by
  unfold CourseSearchTool.execute
  simp only [herr, SearchResults.is_empty, hempty, List.isEmpty_nil, if_true]
  exact ⟨by simp [String.append_assoc], by simp⟩

/-- Witness for C6 (amended): with course filter `"X"` and lesson filter `3`
the message is exactly `No relevant content found in course 'X' in lesson
3.`, and both truthy-filter branches of the formula are exercised. -/
theorem course_search_empty_message_witness :
    (CourseSearchTool.execute emptyStore [] "q" (some "X") (some 3)).1 =
      "No relevant content found in course 'X' in lesson 3." ∧
    (CourseSearchTool.execute emptyStore [] "q" (some "X") (some 3)).2 = [] := by
  have h := course_search_empty_message emptyStore [] "q" (some "X") (some 3) rfl rfl
  exact ⟨by rw [h.1]; rfl, h.2⟩

/-- C10: on a registered tool that has a `last_sources` attribute and whose
`execute` completes without raising, `execute_tool` appends the tool's entire
post-call `last_sources` value to the session log; and `CourseSearchTool`'s
error-string and empty-result returns leave `last_sources` untouched — so a
no-citation call re-appends whatever citations were left over from an earlier
call on the same tool. -/
theorem execute_tool_appends_current_last_sources :
    (∀ (α : Type) (tm : ToolManager α) (tool_name : String) (args : α)
        (t : RegisteredTool α) (result : String) (new_last : List SourceCitation),
      tm.tools.find? (fun u => u.name == tool_name) = some t →
      t.has_last_sources = true →
      t.run args t.last_sources = .ok result new_last →
      ∃ tm', tm.execute_tool tool_name args = .ok (result, tm') ∧
        tm'.session_sources = tm.session_sources ++ new_last) ∧
    (∀ (store : VectorStore) (st : List SourceCitation) (query : String)
        (course_name : Option String) (lesson_number : Option Int),
      ((store.search query course_name lesson_number).error ≠ none ∨
        (store.search query course_name lesson_number).documents = []) →
      (CourseSearchTool.execute store st query course_name lesson_number).2 = st) := by
  constructor
  · intro α tm tool_name args t result new_last hfind hhas hrun
    unfold ToolManager.execute_tool
    simp only [hfind, hrun, hhas, if_true]
    exact ⟨_, rfl, rfl⟩
  · intro store st query course_name lesson_number h
    unfold CourseSearchTool.execute
    cases herr : (store.search query course_name lesson_number).error with
    | some e => simp [herr]
    | none =>
      have hdoc : (store.search query course_name lesson_number).documents = [] := by
        rcases h with h | h
        · exact absurd herr h
        · exact h
      simp [herr, SearchResults.is_empty, hdoc]

/-- A store returning one hit for the query `"hit"` and zero hits otherwise. -/
def hitOrMissStore : VectorStore :=
  { search := fun q _ _ =>
      if q == "hit"
      then { documents := ["doc1"], metadata := [⟨some "CourseA", some 1⟩], error := none }
      else { documents := [], metadata := [], error := none },
    get_lesson_link := fun _ _ => some "linkA" }

/-- The registered `CourseSearchTool` instance over `hitOrMissStore`, with
`last_sources` state `last`, as a registry entry (arguments are the
`(query, course_name, lesson_number)` kwargs). -/
def searchEntry (last : List SourceCitation) :
    RegisteredTool (String × Option String × Option Int) :=
  { name := "search_course_content",
    has_last_sources := true,
    run := fun a s =>
      let out := CourseSearchTool.execute hitOrMissStore s a.1 a.2.1 a.2.2
      .ok out.1 out.2,
    last_sources := last }

/-- Witness for C10: after a hit-producing call left the citation
`CourseA - Lesson 1` in both the tool state and the session log, a second,
zero-hit call on the same tool appends that leftover citation to the session
log a second time. -/
theorem execute_tool_appends_current_last_sources_witness :
    ∃ tm', ToolManager.execute_tool
        ⟨[searchEntry [⟨"CourseA - Lesson 1", some "linkA"⟩]],
          [⟨"CourseA - Lesson 1", some "linkA"⟩]⟩
        "search_course_content" ("miss", none, none) =
      .ok ("No relevant content found.", tm') ∧
      tm'.session_sources =
        [⟨"CourseA - Lesson 1", some "linkA"⟩, ⟨"CourseA - Lesson 1", some "linkA"⟩] := by
  have h := execute_tool_appends_current_last_sources.1
      (String × Option String × Option Int)
      ⟨[searchEntry [⟨"CourseA - Lesson 1", some "linkA"⟩]],
        [⟨"CourseA - Lesson 1", some "linkA"⟩]⟩
      "search_course_content" ("miss", none, none)
      (searchEntry [⟨"CourseA - Lesson 1", some "linkA"⟩])
      "No relevant content found." [⟨"CourseA - Lesson 1", some "linkA"⟩]
      rfl rfl rfl
  obtain ⟨tm', h1, h2⟩ := h
  exact ⟨tm', h1, h2⟩

/-! ### Claims about the retry logic -/

/-- Helper: a run of `retryAux` in which every reachable attempt fails with a
transient-classified message makes all `remaining + 1` attempts, sleeps
`2 ^ a` after each non-final failed attempt `a`, and re-raises the final
attempt's message. -/
theorem retryAux_all_transient (α : Type) (call : Nat → CallOutcome α) :
    ∀ remaining attempt,
    (∀ a, attempt ≤ a → a ≤ attempt + remaining →
      ∃ m, call a = .err m ∧ isTransientApiMsg m = true) →
    (retryAux call remaining attempt).attempts = remaining + 1 ∧
    (retryAux call remaining attempt).sleeps = (List.range' attempt remaining).map (2 ^ ·) ∧
    ∃ m, call (attempt + remaining) = .err m ∧
      (retryAux call remaining attempt).result = .error m := by
  intro remaining
  induction remaining with
  | zero =>
    intro attempt h
    obtain ⟨m, hm, _⟩ := h attempt le_rfl (by omega)
    unfold retryAux
    rw [hm]
    exact ⟨rfl, rfl, m, by simpa using hm, rfl⟩
  | succ r ih =>
    intro attempt h
    obtain ⟨m, hm, htr⟩ := h attempt le_rfl (by omega)
    obtain ⟨ha, hs, hr⟩ := ih (attempt + 1) (fun a h1 h2 => h a (by omega) (by omega))
    unfold retryAux
    rw [hm]
    simp only [htr, if_true]
    refine ⟨by simp [ha], ?_, ?_⟩
    · rw [List.range'_succ]
      simp only [List.map_cons]
      simpa using hs
    · obtain ⟨m', hm', hr'⟩ := hr
      refine ⟨m', ?_, by simpa using hr'⟩
      rw [show attempt + (r + 1) = attempt + 1 + r by omega]
      exact hm'

/-- Helper: a run of `retryAux` whose first `k` attempts fail transiently and
whose attempt `k` succeeds stops there with `k + 1` attempts and the doubling
sleeps of the failed attempts. -/
theorem retryAux_success_after (α : Type) (call : Nat → CallOutcome α) :
    ∀ (k remaining attempt : Nat) (v : α), k ≤ remaining →
    call (attempt + k) = .ok v →
    (∀ a, attempt ≤ a → a < attempt + k →
      ∃ m, call a = .err m ∧ isTransientApiMsg m = true) →
    retryAux call remaining attempt =
      ⟨.ok v, k + 1, (List.range' attempt k).map (2 ^ ·)⟩ := by
  intro k
  induction k with
  | zero =>
    intro remaining attempt v _ hok _
    rw [Nat.add_zero] at hok
    cases remaining with
    | zero => unfold retryAux; rw [hok]; rfl
    | succ r => unfold retryAux; rw [hok]; rfl
  | succ kk ih =>
    intro remaining attempt v hk hok h
    obtain ⟨r, rfl⟩ : ∃ r, remaining = r + 1 := ⟨remaining - 1, by omega⟩
    obtain ⟨m, hm, htr⟩ := h attempt le_rfl (by omega)
    unfold retryAux
    rw [hm]
    simp only [htr, if_true]
    have hrec := ih r (attempt + 1) v (by omega)
      (by rw [show attempt + 1 + kk = attempt + (kk + 1) by omega]; exact hok)
      (fun a h1 h2 => h a (by omega) (by omega))
    rw [hrec]
    simp [List.range'_succ]

/-- C7: in `_api_call_with_retry`, a run whose every attempt fails with a
transient-classified message (rate-limit/network/connection signature) makes
all `max_retries + 1` attempts with per-attempt doubling delays and re-raises
only when retries are exhausted; a non-transient error on the first attempt
propagates immediately with no retry and no delay; and a success after `k`
transient failures stops at attempt `k` with the doubling delays of the
failed attempts. -/
theorem api_call_with_retry_spec (α : Type) (call : Nat → CallOutcome α)
    (max_retries : Nat) :
    ((∀ a, a ≤ max_retries → ∃ m, call a = .err m ∧ isTransientApiMsg m = true) →
      (api_call_with_retry call max_retries).attempts = max_retries + 1 ∧
      (api_call_with_retry call max_retries).sleeps =
        (List.range max_retries).map (2 ^ ·) ∧
      ∃ m, call max_retries = .err m ∧
        (api_call_with_retry call max_retries).result = .error m) ∧
    (∀ m, call 0 = .err m → isTransientApiMsg m = false →
      api_call_with_retry call max_retries = ⟨.error m, 1, []⟩) ∧
    (∀ k v, k ≤ max_retries → call k = .ok v →
      (∀ a, a < k → ∃ m, call a = .err m ∧ isTransientApiMsg m = true) →
      api_call_with_retry call max_retries =
        ⟨.ok v, k + 1, (List.range k).map (2 ^ ·)⟩) := by
  refine ⟨?_, ?_, ?_⟩
  · intro h
    have hall := retryAux_all_transient α call max_retries 0 (fun a _ h2 => h a (by omega))
    simpa [api_call_with_retry, List.range_eq_range'] using hall
  · intro m hm htr
    unfold api_call_with_retry
    cases max_retries with
    | zero => unfold retryAux; rw [hm]
    | succ r => unfold retryAux; rw [hm]; simp [htr]
  · intro k v hk hok h
    have hsucc := retryAux_success_after α call k max_retries 0 v hk
      (by simpa using hok) (fun a _ h2 => h a (by omega))
    simpa [api_call_with_retry, List.range_eq_range'] using hsucc

/-- Witness for C7: three all-transient attempts on `"network down"` give 3
attempts with delays `[1, 2]` seconds, and the non-transient `"bad request"`
propagates immediately with one attempt and no delay. -/
theorem api_call_with_retry_spec_witness :
    (api_call_with_retry (fun _ => CallOutcome.err (α := Unit) "network down") 2).attempts = 3 ∧
    (api_call_with_retry (fun _ => CallOutcome.err (α := Unit) "network down") 2).sleeps = [1, 2] ∧
    api_call_with_retry (fun _ => CallOutcome.err (α := Unit) "bad request") 2 =
      ⟨.error "bad request", 1, []⟩ := by
  have h1 := (api_call_with_retry_spec Unit (fun _ => .err "network down") 2).1
    (fun a _ => ⟨"network down", rfl, by decide⟩)
  have h2 := (api_call_with_retry_spec Unit (fun _ => .err "bad request") 2).2.1
    "bad request" rfl (by decide)
  exact ⟨h1.1, by rw [h1.2.1]; rfl, h2⟩

/-! ### Claims about the orchestrator -/

/-- The ids of the `tool_use` blocks of a content list, in order. -/
def toolUseIds : List ContentBlock → List String
  | [] => []
  | .tool_use id _ _ :: rest => id :: toolUseIds rest
  | .text _ :: rest => toolUseIds rest

/-- Unfolding equation: empty content list. -/
theorem go_nil (ex : ExecFn) (acc : List ToolResultBlock) :
    execute_tools_for_round_go ex [] acc = if acc.isEmpty then none else some acc := rfl

/-- Unfolding equation: a text block is skipped. -/
theorem go_text (ex : ExecFn) (t : String) (rest : List ContentBlock)
    (acc : List ToolResultBlock) :
    execute_tools_for_round_go ex (.text t :: rest) acc =
      execute_tools_for_round_go ex rest acc := rfl

/-- Unfolding equation: a `tool_use` block whose execution succeeds. -/
theorem go_tool_ok (ex : ExecFn) (id name : String) (input : List (String × String))
    (rest : List ContentBlock) (acc : List ToolResultBlock) (r : String)
    (hx : ex name input = .ok r) :
    execute_tools_for_round_go ex (.tool_use id name input :: rest) acc =
      execute_tools_for_round_go ex rest (acc ++ [⟨id, r⟩]) := by
  show (match ex name input with
    | .ok r => execute_tools_for_round_go ex rest (acc ++ [⟨id, r⟩])
    | .raised m =>
      if isTransientToolMsg m then none
      else execute_tools_for_round_go ex rest
        (acc ++ [⟨id, "Tool execution failed: " ++ m⟩])) =
    execute_tools_for_round_go ex rest (acc ++ [⟨id, r⟩])
  rw [hx]

/-- Unfolding equation: a `tool_use` block raising a transient-classified
message aborts the batch. -/
theorem go_tool_raised_transient (ex : ExecFn) (id name : String)
    (input : List (String × String)) (rest : List ContentBlock)
    (acc : List ToolResultBlock) (m : String)
    (hx : ex name input = .raised m) (htr : isTransientToolMsg m = true) :
    execute_tools_for_round_go ex (.tool_use id name input :: rest) acc = none := by
  show (match ex name input with
    | .ok r => execute_tools_for_round_go ex rest (acc ++ [⟨id, r⟩])
    | .raised m =>
      if isTransientToolMsg m then none
      else execute_tools_for_round_go ex rest
        (acc ++ [⟨id, "Tool execution failed: " ++ m⟩])) = none
  rw [hx]
  show (if isTransientToolMsg m then none
    else execute_tools_for_round_go ex rest
      (acc ++ [⟨id, "Tool execution failed: " ++ m⟩])) = none
  rw [htr]
  rfl

/-- Unfolding equation: a `tool_use` block raising a non-transient message
contributes a `Tool execution failed` result and the batch continues. -/
theorem go_tool_raised_other (ex : ExecFn) (id name : String)
    (input : List (String × String)) (rest : List ContentBlock)
    (acc : List ToolResultBlock) (m : String)
    (hx : ex name input = .raised m) (htr : isTransientToolMsg m = false) :
    execute_tools_for_round_go ex (.tool_use id name input :: rest) acc =
      execute_tools_for_round_go ex rest
        (acc ++ [⟨id, "Tool execution failed: " ++ m⟩]) := by
  show (match ex name input with
    | .ok r => execute_tools_for_round_go ex rest (acc ++ [⟨id, r⟩])
    | .raised m =>
      if isTransientToolMsg m then none
      else execute_tools_for_round_go ex rest
        (acc ++ [⟨id, "Tool execution failed: " ++ m⟩])) =
    execute_tools_for_round_go ex rest
      (acc ++ [⟨id, "Tool execution failed: " ++ m⟩])
  rw [hx]
  show (if isTransientToolMsg m then none
    else execute_tools_for_round_go ex rest
      (acc ++ [⟨id, "Tool execution failed: " ++ m⟩])) =
    execute_tools_for_round_go ex rest
      (acc ++ [⟨id, "Tool execution failed: " ++ m⟩])
  rw [htr]
  rfl

/-- Helper: when the tool batch completes (returns `some`), it holds exactly
one `tool_result` per `tool_use` block, in order and with matching ids. -/
theorem execute_tools_go_ids (ex : ExecFn) :
    ∀ (bs : List ContentBlock) (acc trs : List ToolResultBlock),
    execute_tools_for_round_go ex bs acc = some trs →
    trs.map (fun tr => tr.tool_use_id) =
      acc.map (fun tr => tr.tool_use_id) ++ toolUseIds bs := by
  intro bs
  induction bs with
  | nil =>
    intro acc trs h
    rw [go_nil] at h
    cases hacc : acc.isEmpty with
    | true => simp [hacc] at h
    | false =>
      simp only [hacc, Bool.false_eq_true, if_false, Option.some.injEq] at h
      subst h
      simp [toolUseIds]
  | cons b rest ih =>
    intro acc trs h
    cases b with
    | text t =>
      rw [go_text] at h
      simpa [toolUseIds] using ih acc trs h
    | tool_use id name input =>
      cases hx : ex name input with
      | ok r =>
        rw [go_tool_ok ex id name input rest acc r hx] at h
        simpa [toolUseIds, List.append_assoc] using ih _ trs h
      | raised m =>
        cases htr : isTransientToolMsg m with
        | true =>
          rw [go_tool_raised_transient ex id name input rest acc m hx htr] at h
          simp at h
        | false =>
          rw [go_tool_raised_other ex id name input rest acc m hx htr] at h
          simpa [toolUseIds, List.append_assoc] using ih _ trs h

/-- Helper: when every tool execution succeeds and the content has at least
one `tool_use` block (or something is already accumulated), the batch
completes with `some`. -/
theorem execute_tools_go_some (ex : ExecFn)
    (hok : ∀ n a, ∃ s, ex n a = .ok s) :
    ∀ (bs : List ContentBlock) (acc : List ToolResultBlock),
    acc ≠ [] ∨ toolUseIds bs ≠ [] →
    ∃ trs, execute_tools_for_round_go ex bs acc = some trs := by
  intro bs
  induction bs with
  | nil =>
    intro acc h
    have hacc : acc ≠ [] := by
      rcases h with h | h
      · exact h
      · exact absurd rfl h
    refine ⟨acc, ?_⟩
    rw [go_nil]
    simp [hacc]
  | cons b rest ih =>
    intro acc h
    cases b with
    | text t =>
      rw [go_text]
      refine ih acc ?_
      simpa [toolUseIds] using h
    | tool_use id name input =>
      obtain ⟨s, hs⟩ := hok name input
      rw [go_tool_ok ex id name input rest acc s hs]
      exact ih (acc ++ [⟨id, s⟩]) (.inl (by simp))

/-- Helper: a `tool_use` block whose execution raises a transient-classified
message aborts the batch with `none`, provided no earlier `tool_use` block
raised transiently itself. -/
theorem execute_tools_go_transient_none (ex : ExecFn) :
    ∀ (bs1 : List ContentBlock) (id name : String) (input : List (String × String))
      (bs2 : List ContentBlock) (m : String) (acc : List ToolResultBlock),
    ex name input = .raised m → isTransientToolMsg m = true →
    (∀ id2 n2 i2 m2, ContentBlock.tool_use id2 n2 i2 ∈ bs1 →
      ex n2 i2 = .raised m2 → isTransientToolMsg m2 = false) →
    execute_tools_for_round_go ex (bs1 ++ .tool_use id name input :: bs2) acc = none := by
  intro bs1
  induction bs1 with
  | nil =>
    intro id name input bs2 m acc hx htr _
    rw [List.nil_append]
    exact go_tool_raised_transient ex id name input bs2 acc m hx htr
  | cons b rest ih =>
    intro id name input bs2 m acc hx htr hbefore
    cases b with
    | text t =>
      rw [List.cons_append, go_text]
      exact ih id name input bs2 m acc hx htr
        (fun id2 n2 i2 m2 hmem => hbefore id2 n2 i2 m2 (List.mem_cons_of_mem _ hmem))
    | tool_use id2 n2 i2 =>
      rw [List.cons_append]
      cases hx2 : ex n2 i2 with
      | ok r =>
        rw [go_tool_ok ex id2 n2 i2
          (rest ++ ContentBlock.tool_use id name input :: bs2) acc r hx2]
        exact ih id name input bs2 m (acc ++ [⟨id2, r⟩]) hx htr
          (fun id3 n3 i3 m3 hmem => hbefore id3 n3 i3 m3 (List.mem_cons_of_mem _ hmem))
      | raised m2 =>
        have hm2 : isTransientToolMsg m2 = false :=
          hbefore id2 n2 i2 m2 (List.mem_cons_self _ _) hx2
        rw [go_tool_raised_other ex id2 n2 i2
          (rest ++ ContentBlock.tool_use id name input :: bs2) acc m2 hx2 hm2]
        exact ih id name input bs2 m (acc ++ [⟨id2, "Tool execution failed: " ++ m2⟩]) hx htr
          (fun id3 n3 i3 m3 hmem => hbefore id3 n3 i3 m3 (List.mem_cons_of_mem _ hmem))

/-- Unfolding equation: the loop with no fuel left returns its accumulators. -/
theorem genLoop_zero (responses : Nat → ModelResponse) (b : Bool) (mgr : Option ExecFn)
    (reqIdx : Nat) (msgs : List Message) (log : List Bool) (batches : Nat)
    (last : Option ModelResponse) :
    genLoop responses b mgr 0 reqIdx msgs log batches last =
      ⟨msgs, log, batches, last, reqIdx⟩ := rfl

/-- Unfolding equation: a round whose response does not request tool use (or
with no tool manager available) appends the assistant turn and exits. -/
theorem genLoop_succ_exit (responses : Nat → ModelResponse) (b : Bool)
    (mgr : Option ExecFn) (fuel reqIdx : Nat) (msgs : List Message) (log : List Bool)
    (batches : Nat) (last : Option ModelResponse)
    (h : ((responses reqIdx).stop_reason == "tool_use") = false ∨ mgr = none) :
    genLoop responses b mgr (fuel + 1) reqIdx msgs log batches last =
      ⟨msgs ++ [⟨"assistant", .blocks (responses reqIdx).content⟩], log ++ [b],
        batches, some (responses reqIdx), reqIdx + 1⟩ := by
  rcases h with h | h
  · cases mgr with
    | none => simp only [genLoop, h]
    | some ex => simp only [genLoop, h]
  · subst h
    cases hs : (responses reqIdx).stop_reason == "tool_use" with
    | false => simp only [genLoop, hs]
    | true => simp only [genLoop, hs]

/-- Unfolding equation: a tool-use round whose batch completes appends the
assistant turn and the synthesized tool-results user turn and recurses. -/
theorem genLoop_succ_tool_some (responses : Nat → ModelResponse) (b : Bool)
    (ex : ExecFn) (fuel reqIdx : Nat) (msgs : List Message) (log : List Bool)
    (batches : Nat) (last : Option ModelResponse) (trs : List ToolResultBlock)
    (h1 : ((responses reqIdx).stop_reason == "tool_use") = true)
    (he : execute_tools_for_round ex (responses reqIdx).content = some trs) :
    genLoop responses b (some ex) (fuel + 1) reqIdx msgs log batches last =
      genLoop responses b (some ex) fuel (reqIdx + 1)
        ((msgs ++ [⟨"assistant", .blocks (responses reqIdx).content⟩])
          ++ [⟨"user", .toolResults trs⟩])
        (log ++ [b]) (batches + 1) (some (responses reqIdx)) := by
  simp only [genLoop, h1, he]

/-- Unfolding equation: a tool-use round whose batch aborts (`none`) appends
only the assistant turn, counts the batch, and exits the loop. -/
theorem genLoop_succ_tool_none (responses : Nat → ModelResponse) (b : Bool)
    (ex : ExecFn) (fuel reqIdx : Nat) (msgs : List Message) (log : List Bool)
    (batches : Nat) (last : Option ModelResponse)
    (h1 : ((responses reqIdx).stop_reason == "tool_use") = true)
    (he : execute_tools_for_round ex (responses reqIdx).content = none) :
    genLoop responses b (some ex) (fuel + 1) reqIdx msgs log batches last =
      ⟨msgs ++ [⟨"assistant", .blocks (responses reqIdx).content⟩], log ++ [b],
        batches + 1, some (responses reqIdx), reqIdx + 1⟩ := by
  simp only [genLoop, h1, he]

/-- Helper: the loop issues at most one model request per unit of fuel. -/
theorem genLoop_reqLog_length (responses : Nat → ModelResponse) (b : Bool)
    (mgr : Option ExecFn) :
    ∀ (fuel reqIdx : Nat) (msgs : List Message) (log : List Bool) (batches : Nat)
      (last : Option ModelResponse),
    (genLoop responses b mgr fuel reqIdx msgs log batches last).reqLog.length ≤
      log.length + fuel := by
  intro fuel
  induction fuel with
  | zero =>
    intro reqIdx msgs log batches last
    rw [genLoop_zero]
    simp
  | succ fuel ih =>
    intro reqIdx msgs log batches last
    cases hs : (responses reqIdx).stop_reason == "tool_use" with
    | false =>
      rw [genLoop_succ_exit responses b mgr fuel reqIdx msgs log batches last (.inl hs)]
      simp only [List.length_append, List.length_cons, List.length_nil]
      omega
    | true =>
      cases mgr with
      | none =>
        rw [genLoop_succ_exit responses b none fuel reqIdx msgs log batches last (.inr rfl)]
        simp only [List.length_append, List.length_cons, List.length_nil]
        omega
      | some ex =>
        cases he : execute_tools_for_round ex (responses reqIdx).content with
        | none =>
          rw [genLoop_succ_tool_none responses b ex fuel reqIdx msgs log batches last hs he]
          simp only [List.length_append, List.length_cons, List.length_nil]
          omega
        | some trs =>
          rw [genLoop_succ_tool_some responses b ex fuel reqIdx msgs log batches last trs hs he]
          have := ih (reqIdx + 1)
            ((msgs ++ [⟨"assistant", .blocks (responses reqIdx).content⟩])
              ++ [⟨"user", .toolResults trs⟩])
            (log ++ [b]) (batches + 1) (some (responses reqIdx))
          simp only [List.length_append, List.length_cons, List.length_nil] at this ⊢
          omega

/-- Helper: `generate_response` returns the loop's round state unchanged. -/
theorem generate_response_messages (responses : Nat → ModelResponse) (query : String)
    (b : Bool) (mgr : Option ExecFn) (max_rounds : Nat) :
    (generate_response responses query b mgr max_rounds).messages =
      (genLoop responses b mgr max_rounds 0 [⟨"user", .text query⟩] [] 0 none).messages := by
  simp only [generate_response]
  split
  · split <;> rfl
  · rfl

/-- C1: for every round budget `max_rounds ≥ 1` and every response sequence,
`generate_response` issues at most `max_rounds + 1` model requests in total:
at most one per loop round plus at most one forced final synthesis request. -/
theorem generate_response_request_bound (responses : Nat → ModelResponse)
    (query : String) (toolsNonempty : Bool) (mgr : Option ExecFn)
    (max_rounds : Nat) (h : 1 ≤ max_rounds) :
    (generate_response responses query toolsNonempty mgr max_rounds).reqLog.length ≤
      max_rounds + 1 := by
  have hloop := genLoop_reqLog_length responses toolsNonempty mgr max_rounds 0
    [⟨"user", .text query⟩] [] 0 none
  simp only [List.length_nil, Nat.zero_add] at hloop
  simp only [generate_response]
  split
  · split
    · simp only [List.length_append, List.length_cons, List.length_nil]
      omega
    · exact Nat.le_succ_of_le hloop
  · exact Nat.le_succ_of_le hloop

/-- Witness for C1 at `max_rounds = 1` on a constant text response. -/
theorem generate_response_request_bound_witness :
    1 ≤ 1 ∧
    (generate_response (fun _ => ⟨"end_turn", [.text "hi"]⟩) "q" true none 1).reqLog.length ≤ 2 :=
  ⟨le_rfl, generate_response_request_bound (fun _ => ⟨"end_turn", [.text "hi"]⟩)
    "q" true none 1 le_rfl⟩

/-- C2: with responses tool_use, tool_use, text (all tool executions
succeeding) and `max_rounds = 2`, `generate_response` performs exactly 2
tool-execution batches and exactly 3 model requests, the third request
carries no tool definitions, and the returned string is the third response's
text. -/
theorem generate_response_two_tool_rounds (responses : Nat → ModelResponse)
    (query : String) (ex : ExecFn)
    (h0 : (responses 0).stop_reason = "tool_use")
    (h1 : (responses 1).stop_reason = "tool_use")
    (ht0 : toolUseIds (responses 0).content ≠ [])
    (ht1 : toolUseIds (responses 1).content ≠ [])
    (hok : ∀ n a, ∃ s, ex n a = .ok s)
    (t : String) (rest : List ContentBlock)
    (h2 : (responses 2).content = .text t :: rest) :
    (generate_response responses query true (some ex) 2).reqLog = [true, true, false] ∧
    (generate_response responses query true (some ex) 2).batches = 2 ∧
    (generate_response responses query true (some ex) 2).result = some t := by
  obtain ⟨trs0, he0⟩ := execute_tools_go_some ex hok (responses 0).content [] (.inr ht0)
  obtain ⟨trs1, he1⟩ := execute_tools_go_some ex hok (responses 1).content [] (.inr ht1)
  have he0' : execute_tools_for_round ex (responses 0).content = some trs0 := he0
  have he1' : execute_tools_for_round ex (responses 1).content = some trs1 := he1
  have hb0 : ((responses 0).stop_reason == "tool_use") = true := by rw [h0]; rfl
  have hb1 : ((responses 1).stop_reason == "tool_use") = true := by rw [h1]; rfl
  have hstep1 : genLoop responses true (some ex) 2 0 [⟨"user", .text query⟩] [] 0 none =
      genLoop responses true (some ex) 1 1
        [⟨"user", .text query⟩, ⟨"assistant", .blocks (responses 0).content⟩,
          ⟨"user", .toolResults trs0⟩] [true] 1 (some (responses 0)) := by
    simpa using genLoop_succ_tool_some responses true ex 1 0
      [⟨"user", .text query⟩] [] 0 none trs0 hb0 he0'
  have hstep2 : genLoop responses true (some ex) 1 1
      [⟨"user", .text query⟩, ⟨"assistant", .blocks (responses 0).content⟩,
        ⟨"user", .toolResults trs0⟩] [true] 1 (some (responses 0)) =
      ⟨[⟨"user", .text query⟩, ⟨"assistant", .blocks (responses 0).content⟩,
          ⟨"user", .toolResults trs0⟩, ⟨"assistant", .blocks (responses 1).content⟩,
          ⟨"user", .toolResults trs1⟩], [true, true], 2, some (responses 1), 2⟩ := by
    have h := genLoop_succ_tool_some responses true ex 0 1
      [⟨"user", .text query⟩, ⟨"assistant", .blocks (responses 0).content⟩,
        ⟨"user", .toolResults trs0⟩] [true] 1 (some (responses 0)) trs1 hb1 he1'
    rw [genLoop_zero] at h
    simpa using h
  have hloop := hstep1.trans hstep2
  have hg : generate_response responses query true (some ex) 2 =
      ⟨[⟨"user", .text query⟩, ⟨"assistant", .blocks (responses 0).content⟩,
          ⟨"user", .toolResults trs0⟩, ⟨"assistant", .blocks (responses 1).content⟩,
          ⟨"user", .toolResults trs1⟩], [true, true, false], 2, true, some t⟩ := by
    simp only [generate_response]
    rw [hloop]
    simp [contentText, h2]
  exact ⟨by rw [hg], by rw [hg], by rw [hg]⟩

/-- The three-response mock sequence of the spec's sequential-tool-use test:
tool_use, tool_use, then plain text. -/
def c2responses : Nat → ModelResponse := fun n =>
  match n with
  | 0 => ⟨"tool_use", [.tool_use "id1" "search_course_content" [("query", "a")]]⟩
  | 1 => ⟨"tool_use", [.tool_use "id2" "search_course_content" [("query", "b")]]⟩
  | _ => ⟨"end_turn", [.text "final answer"]⟩

/-- A tool executor whose every call succeeds. -/
def c2exec : ExecFn := fun _ _ => .ok "result text"

/-- Witness for C2 on the concrete mocked sequence. -/
theorem generate_response_two_tool_rounds_witness :
    (generate_response c2responses "q" true (some c2exec) 2).reqLog = [true, true, false] ∧
    (generate_response c2responses "q" true (some c2exec) 2).batches = 2 ∧
    (generate_response c2responses "q" true (some c2exec) 2).result = some "final answer" :=
  generate_response_two_tool_rounds c2responses "q" c2exec rfl rfl
    (by simp [c2responses, toolUseIds]) (by simp [c2responses, toolUseIds])
    (fun n a => ⟨"result text", rfl⟩) "final answer" [] rfl

/-- A round-1 response that requests a tool after a leading text block,
followed by plain text responses. -/
def c3responses : Nat → ModelResponse := fun n =>
  match n with
  | 0 => ⟨"tool_use", [.text "thinking", .tool_use "id1" "search_course_content" []]⟩
  | _ => ⟨"end_turn", [.text "synthesized"]⟩

/-- A tool executor that raises a transient-classified error. -/
def c3exec : ExecFn := fun _ _ => .raised "rate limit exceeded"

/-- C3 counterexample: a transient tool error in round 1 makes
`generate_response` break out of the loop and return the round-1 response's
first text directly — it issues only 1 model request and never performs the
forced final synthesis request the claim describes. -/
theorem generate_response_transient_counterexample :
    (c3responses 0).stop_reason = "tool_use" ∧
    c3exec "search_course_content" [] = .raised "rate limit exceeded" ∧
    isTransientToolMsg "rate limit exceeded" = true ∧
    (generate_response c3responses "q" true (some c3exec) 2).didSynthesis = false ∧
    (generate_response c3responses "q" true (some c3exec) 2).reqLog = [true] ∧
    (generate_response c3responses "q" true (some c3exec) 2).result = some "thinking" := by
  refine ⟨rfl, rfl, by decide, ?_, ?_, ?_⟩ <;> rfl

/-- C3 (amended): if during round 1 a tool raises a transient-classified
error (with no earlier tool of the round raising transiently), the
orchestrator skips round 2 and all remaining rounds, issues no further model
request (in particular no forced synthesis request), and returns the text of
the round-1 assistant response's first content block directly. -/
theorem generate_response_transient_tool_abort (responses : Nat → ModelResponse)
    (query : String) (toolsNonempty : Bool) (ex : ExecFn) (max_rounds : Nat)
    (hN : 1 ≤ max_rounds)
    (h0 : (responses 0).stop_reason = "tool_use")
    (bs1 : List ContentBlock) (id name : String) (input : List (String × String))
    (bs2 : List ContentBlock) (m : String)
    (hsplit : (responses 0).content = bs1 ++ .tool_use id name input :: bs2)
    (hraise : ex name input = .raised m)
    (htrans : isTransientToolMsg m = true)
    (hbefore : ∀ id2 n2 i2 m2, ContentBlock.tool_use id2 n2 i2 ∈ bs1 →
      ex n2 i2 = .raised m2 → isTransientToolMsg m2 = false) :
    (generate_response responses query toolsNonempty (some ex) max_rounds).didSynthesis
      = false ∧
    (generate_response responses query toolsNonempty (some ex) max_rounds).reqLog
      = [toolsNonempty] ∧
    (generate_response responses query toolsNonempty (some ex) max_rounds).batches = 1 ∧
    (generate_response responses query toolsNonempty (some ex) max_rounds).result
      = contentText (responses 0).content := by
  obtain ⟨N, rfl⟩ : ∃ N, max_rounds = N + 1 := ⟨max_rounds - 1, by omega⟩
  have hb0 : ((responses 0).stop_reason == "tool_use") = true := by rw [h0]; rfl
  have hnone : execute_tools_for_round ex (responses 0).content = none := by
    show execute_tools_for_round_go ex (responses 0).content [] = none
    rw [hsplit]
    exact execute_tools_go_transient_none ex bs1 id name input bs2 m [] hraise htrans hbefore
  have hloop := genLoop_succ_tool_none responses toolsNonempty ex N 0
    [⟨"user", .text query⟩] [] 0 none hb0 hnone
  have hg : generate_response responses query toolsNonempty (some ex) (N + 1) =
      ⟨[⟨"user", .text query⟩, ⟨"assistant", .blocks (responses 0).content⟩],
        [toolsNonempty], 1, false, contentText (responses 0).content⟩ := by
    simp only [generate_response]
    rw [hloop]
    simp
  exact ⟨by rw [hg], by rw [hg], by rw [hg], by rw [hg]⟩

/-- Witness for C3 (amended) on the concrete transient scenario. -/
theorem generate_response_transient_tool_abort_witness :
    (generate_response c3responses "q" true (some c3exec) 2).reqLog = [true] ∧
    (generate_response c3responses "q" true (some c3exec) 2).batches = 1 ∧
    (generate_response c3responses "q" true (some c3exec) 2).result = some "thinking" := by
  have h := generate_response_transient_tool_abort c3responses "q" true c3exec 2
    (by omega) rfl [.text "thinking"] "id1" "search_course_content" [] []
    "rate limit exceeded" rfl rfl (by decide)
    (by intro id2 n2 i2 m2 hmem hx2; simp at hmem)
  exact ⟨h.2.1, h.2.2.1, by rw [h.2.2.2]; rfl⟩

/-- The role the conversation protocol expects after one with role `r`. -/
def flipRole (r : String) : String := if r == "user" then "assistant" else "user"

/-- Strict role alternation of a message list, starting with expected role
`r`. -/
def altRolesFrom (r : String) : List Message → Bool
  | [] => true
  | m :: ms => m.role == r && altRolesFrom (flipRole r) ms

/-- The role expected right after `msgs` when the expectation before `msgs`
was `r`. -/
def expectedRole : List Message → String → String
  | [], r => r
  | _ :: ms, r => expectedRole ms (flipRole r)

/-- Adjacent-pair shape condition: a tool-results turn must carry role
`"user"` and exactly one `tool_result` (id for id, in order) per `tool_use`
block of the immediately preceding assistant blocks turn. -/
def pairOK (m1 m2 : Message) : Bool :=
  match m2.content with
  | .toolResults trs =>
    match m1.content with
    | .blocks bs => m2.role == "user" &&
        (trs.map (fun tr => tr.tool_use_id) == toolUseIds bs)
    | _ => false
  | _ => true

/-- Every adjacent pair of the list satisfies `pairOK`. -/
def wfToolResults : List Message → Bool
  | m1 :: m2 :: rest => pairOK m1 m2 && wfToolResults (m2 :: rest)
  | _ => true

/-- The first message is not a tool-results turn (so every tool-results turn
has a preceding turn, checked by `wfToolResults`). -/
def headNotToolResults : List Message → Bool
  | [] => true
  | m :: _ =>
    match m.content with
    | .toolResults _ => false
    | _ => true

/-- Appending one message to an alternating list stays alternating exactly
when the new message carries the expected role. -/
theorem altRolesFrom_append (msgs : List Message) : ∀ (r : String) (m : Message),
    altRolesFrom r (msgs ++ [m]) =
      (altRolesFrom r msgs && (m.role == expectedRole msgs r)) := by
  induction msgs with
  | nil => intro r m; simp [altRolesFrom, expectedRole]
  | cons a tail ih =>
    intro r m
    simp [altRolesFrom, expectedRole, ih, Bool.and_assoc]

/-- The expected role flips with each appended message. -/
theorem expectedRole_append (msgs : List Message) : ∀ (r : String) (m : Message),
    expectedRole (msgs ++ [m]) r = flipRole (expectedRole msgs r) := by
  induction msgs with
  | nil => intro r m; rfl
  | cons a tail ih => intro r m; simp [expectedRole, ih]

/-- Pair well-formedness of an extended list reduces to the old list plus the
new last pair. -/
theorem wfToolResults_append (msgs : List Message) : ∀ (m : Message),
    wfToolResults (msgs ++ [m]) =
      (wfToolResults msgs &&
        (match msgs.getLast? with | some p => pairOK p m | none => true)) := by
  induction msgs with
  | nil => intro m; simp [wfToolResults]
  | cons a tail ih =>
    intro m
    cases tail with
    | nil => simp [wfToolResults]
    | cons b rest =>
      show (pairOK a b && wfToolResults ((b :: rest) ++ [m])) =
        ((pairOK a b && wfToolResults (b :: rest)) &&
          match (a :: b :: rest).getLast? with | some p => pairOK p m | none => true)
      rw [ih m, List.getLast?_cons_cons, Bool.and_assoc]

/-- Appending never changes the head of a non-empty list. -/
theorem headNotToolResults_append (msgs : List Message) (m : Message) (h : msgs ≠ []) :
    headNotToolResults (msgs ++ [m]) = headNotToolResults msgs := by
  cases msgs with
  | nil => exact absurd rfl h
  | cons a tail => rfl

/-- Helper: the loop preserves the alternation and tool-results shape
invariants of the round state. -/
theorem genLoop_invariant (responses : Nat → ModelResponse) (b : Bool)
    (mgr : Option ExecFn) :
    ∀ (fuel reqIdx : Nat) (msgs : List Message) (log : List Bool) (batches : Nat)
      (last : Option ModelResponse),
    msgs ≠ [] →
    altRolesFrom "user" msgs = true →
    expectedRole msgs "user" = "assistant" →
    wfToolResults msgs = true →
    headNotToolResults msgs = true →
    altRolesFrom "user"
      (genLoop responses b mgr fuel reqIdx msgs log batches last).messages = true ∧
    wfToolResults
      (genLoop responses b mgr fuel reqIdx msgs log batches last).messages = true ∧
    headNotToolResults
      (genLoop responses b mgr fuel reqIdx msgs log batches last).messages = true := by
  intro fuel
  induction fuel with
  | zero =>
    intro reqIdx msgs log batches last hne halt hexp hwf hhead
    rw [genLoop_zero]
    exact ⟨halt, hwf, hhead⟩
  | succ fuel ih =>
    intro reqIdx msgs log batches last hne halt hexp hwf hhead
    have halt1 : altRolesFrom "user"
        (msgs ++ [⟨"assistant", .blocks (responses reqIdx).content⟩]) = true := by
      rw [altRolesFrom_append]
      simp [halt, hexp]
    have hwf1 : wfToolResults
        (msgs ++ [⟨"assistant", .blocks (responses reqIdx).content⟩]) = true := by
      rw [wfToolResults_append]
      cases hl : msgs.getLast? with
      | none => simp [hwf]
      | some p => simp [hwf, pairOK]
    have hhead1 : headNotToolResults
        (msgs ++ [⟨"assistant", .blocks (responses reqIdx).content⟩]) = true := by
      rw [headNotToolResults_append msgs _ hne]
      exact hhead
    cases hs : (responses reqIdx).stop_reason == "tool_use" with
    | false =>
      rw [genLoop_succ_exit responses b mgr fuel reqIdx msgs log batches last (.inl hs)]
      exact ⟨halt1, hwf1, hhead1⟩
    | true =>
      cases mgr with
      | none =>
        rw [genLoop_succ_exit responses b none fuel reqIdx msgs log batches last (.inr rfl)]
        exact ⟨halt1, hwf1, hhead1⟩
      | some ex =>
        cases he : execute_tools_for_round ex (responses reqIdx).content with
        | none =>
          rw [genLoop_succ_tool_none responses b ex fuel reqIdx msgs log batches last hs he]
          exact ⟨halt1, hwf1, hhead1⟩
        | some trs =>
          rw [genLoop_succ_tool_some responses b ex fuel reqIdx msgs log batches last trs hs he]
          apply ih
          · simp
          · rw [altRolesFrom_append, expectedRole_append, hexp]
            simp [halt1, flipRole]
          · rw [expectedRole_append, expectedRole_append, hexp]
            simp [flipRole]
          · rw [wfToolResults_append, List.getLast?_concat]
            have hids : trs.map (fun tr => tr.tool_use_id) =
                toolUseIds (responses reqIdx).content := by
              simpa using execute_tools_go_ids ex (responses reqIdx).content [] trs he
            simp [hwf1, pairOK, hids]
          · rw [headNotToolResults_append _ _ (by simp)]
            exact hhead1

/-- C4: throughout every run of `generate_response` the round-state message
list strictly alternates roles starting from the seeded user query (user,
assistant, user, assistant, ...), and every synthesized tool-result turn has
role `"user"` with exactly one `tool_result` block, id for id and in order,
per `tool_use` block of the immediately preceding assistant turn. -/
theorem generate_response_round_state_shape (responses : Nat → ModelResponse)
    (query : String) (toolsNonempty : Bool) (mgr : Option ExecFn) (max_rounds : Nat) :
    altRolesFrom "user"
      (generate_response responses query toolsNonempty mgr max_rounds).messages = true ∧
    wfToolResults
      (generate_response responses query toolsNonempty mgr max_rounds).messages = true ∧
    headNotToolResults
      (generate_response responses query toolsNonempty mgr max_rounds).messages = true := by
  rw [generate_response_messages]
  exact genLoop_invariant responses toolsNonempty mgr max_rounds 0
    [⟨"user", .text query⟩] [] 0 none (by simp) rfl rfl rfl rfl
